import Mathlib

/-!
Shallow embedding of linode_dyndns.py, a dynamic-DNS updater for
Linode-hosted DNS.  The Python source is translated function by function:

  - socket.inet_aton      -> inet_aton (glibc numbers-and-dots grammar)
  - _validateIP           -> validateIP
  - _getExternalIP        -> getExternalIP
  - _linodeAPICall        -> linodeAPIResult / linodeAPICall
  - _normalizeDomainID    -> normalizeDomainID (scan: scanDomains)
  - _normalizeResourceID  -> normalizeResourceID (scan: scanResources)
  - _updateDynDNS         -> updateDynDNS
  - _main (after argparse)-> mainRun

Python dictionaries from json.loads are modelled by JVal; Python dict
subscripting, len() and str() are modelled by pyIndex, pyLen and pyStr.
A run result distinguishes normal return, _handleError termination
(sys.exit(-1)), successful sys.exit(), and an unhandled Python exception.
Network behaviour and the external-IP lookup are supplied by an Env;
provider API calls and cache-file writes are recorded as an event trace.
-/

/-- A JSON value as produced by json.loads: strings, integers, arrays and
objects (association lists, keys unique as in a Python dict). -/
inductive JVal where
  | jstr : String → JVal
  | jnum : Int → JVal
  | jarr : List JVal → JVal
  | jobj : List (String × JVal) → JVal

mutual

/-- Python repr() restricted to the JSON fragment (single-quoted strings,
no escaping), used by str() on lists and dicts. -/
def pyRepr : JVal → String
  | .jstr s => "\x27" ++ s ++ "\x27"
  | .jnum n => toString n
  | .jarr l => "[" ++ pyReprItems l ++ "]"
  | .jobj kvs => "\x7b" ++ pyReprPairs kvs ++ "\x7d"

/-- Comma-separated reprs of the items of a Python list. -/
def pyReprItems : List JVal → String
  | [] => ""
  | [v] => pyRepr v
  | v :: rest => pyRepr v ++ ", " ++ pyReprItems rest

/-- Comma-separated reprs of the pairs of a Python dict. -/
def pyReprPairs : List (String × JVal) → String
  | [] => ""
  | [(k, v)] => "\x27" ++ k ++ "\x27: " ++ pyRepr v
  | (k, v) :: rest => "\x27" ++ k ++ "\x27: " ++ pyRepr v ++ ", " ++ pyReprPairs rest

end

/-- Python str() on a JSON value: identity on strings, decimal on
integers, repr on containers. -/
def pyStr : JVal → String
  | .jstr s => s
  | .jnum n => toString n
  | .jarr l => pyRepr (.jarr l)
  | .jobj kvs => pyRepr (.jobj kvs)

/-- Python subscripting v[k] with a string key: KeyError when a dict
lacks the key, TypeError when the value is not a dict. -/
def pyIndex (v : JVal) (k : String) : Except String JVal :=
  match v with
  | .jobj kvs =>
    match List.lookup k kvs with
    | some x => .ok x
    | none => .error ("KeyError: " ++ k)
  | _ => .error ("TypeError: value is not subscriptable by " ++ k)

/-- Python len(): defined on lists, strings and dicts; TypeError on an
integer. -/
def pyLen : JVal → Except String Nat
  | .jarr l => .ok l.length
  | .jstr s => .ok s.length
  | .jobj kvs => .ok kvs.length
  | .jnum _ => .error "TypeError: object of type int has no len()"

/-- Python equality value == candidate where candidate is a str: true
only when the value is an equal string (no coercion across types). -/
def jvalEqStr : JVal → String → Bool
  | .jstr s, c => s == c
  | _, _ => false

/-- Iterating a JSON value with a for-loop whose body subscripts each
element by a string key: lists iterate their elements; a non-empty string
or dict yields elements whose subscripting raises TypeError at once, a
number is not iterable. -/
def pyIterForScan : JVal → Except String (List JVal)
  | .jarr l => .ok l
  | .jstr s => if s.isEmpty then .ok [] else .error "TypeError: string indices must be integers"
  | .jobj kvs => if kvs.isEmpty then .ok [] else .error "TypeError: string indices must be integers"
  | .jnum _ => .error "TypeError: int object is not iterable"

/-- ASCII lowercasing, modelling str.lower() on the record-type strings
that occur in API responses. -/
def pyLowerChar (c : Char) : Char :=
  if 65 ≤ c.toNat && c.toNat ≤ 90 then Char.ofNat (c.toNat + 32) else c

/-- Python str.lower() (ASCII fragment). -/
def pyLower (s : String) : String := ⟨s.data.map pyLowerChar⟩

/-- Python dict assignment d[k] = v on an association list: replace the
existing binding in place or append a new one. -/
def dictSet : List (String × String) → String → String → List (String × String)
  | [], k, v => [(k, v)]
  | (a, b) :: rest, k, v =>
    if a == k then (k, v) :: rest else (a, b) :: dictSet rest k v

/-- Outcome of a piece of the Python program: a value, termination via
_handleError (prints the message, sys.exit(-1)), successful termination
via sys.exit() after printing a message, or an unhandled exception. -/
inductive RunResult (α : Type) where
  | ok : α → RunResult α
  | fatal : String → RunResult α
  | exitSuccess : String → RunResult α
  | exn : String → RunResult α

/-- Sequencing that propagates every non-ok outcome. -/
def RunResult.bind : RunResult α → (α → RunResult β) → RunResult β
  | .ok a, f => f a
  | .fatal m, _ => .fatal m
  | .exitSuccess m, _ => .exitSuccess m
  | .exn m, _ => .exn m

/-- Forget the value of an outcome. -/
def RunResult.asUnit : RunResult α → RunResult Unit
  | .ok _ => .ok ()
  | .fatal m => .fatal m
  | .exitSuccess m => .exitSuccess m
  | .exn m => .exn m

/-- True exactly on the successful-termination outcome. -/
def RunResult.isExitSuccessB : RunResult α → Bool
  | .exitSuccess _ => true
  | _ => false

/-- Observable side effects of a run: one provider API request (with its
full query parameters) per conn.request, and one cache-file write. -/
inductive Event where
  | apiCall : List (String × String) → Event
  | cacheWrite : String → String → Event
deriving DecidableEq

/-- What the network returns for one HTTPS request: transport failure,
a body that is not valid JSON, or a parsed JSON body. -/
inductive HttpResult where
  | transportFail : HttpResult
  | badJson : HttpResult
  | json : JVal → HttpResult

/-- The ambient world: the provider API endpoint as a function from the
request parameters to its result, and the external-IP service body
(none models an unreachable service). -/
structure Env where
  net : List (String × String) → HttpResult
  extIP : Option String

/- ---------------- socket.inet_aton ---------------- -/

/-- Splits a character list on the dot character, keeping empty groups,
the way the numbers-and-dots IPv4 grammar segments its input. -/
def splitOnDot : List Char → List (List Char)
  | [] => [[]]
  | c :: rest =>
    match splitOnDot rest with
    | [] => [[]]
    | g :: gs => if c = '.' then [] :: g :: gs else (c :: g) :: gs

/-- Decimal digit value. -/
def digitValDec (c : Char) : Option Nat :=
  if 48 ≤ c.toNat && c.toNat ≤ 57 then some (c.toNat - 48) else none

/-- Octal digit value. -/
def digitValOct (c : Char) : Option Nat :=
  if 48 ≤ c.toNat && c.toNat ≤ 55 then some (c.toNat - 48) else none

/-- Hexadecimal digit value. -/
def digitValHex (c : Char) : Option Nat :=
  if 48 ≤ c.toNat && c.toNat ≤ 57 then some (c.toNat - 48)
  else if 97 ≤ c.toNat && c.toNat ≤ 102 then some (c.toNat - 87)
  else if 65 ≤ c.toNat && c.toNat ≤ 70 then some (c.toNat - 55)
  else none

/-- Accumulates digits in the given base; fails on any non-digit. -/
def parseDigitsBase (base : Nat) (dv : Char → Option Nat) (cs : List Char) : Option Nat :=
  cs.foldl (fun acc c =>
    match acc, dv c with
    | some a, some d => some (a * base + d)
    | _, _ => none) (some 0)

/-- One component of a numbers-and-dots address, in C numeric notation:
0x/0X prefix for hexadecimal (at least one digit), leading 0 for octal,
plain digits for decimal.  Empty input is rejected. -/
def parseIPComp : List Char → Option Nat
  | [] => none
  | '0' :: 'x' :: rest =>
    if rest.isEmpty then none else parseDigitsBase 16 digitValHex rest
  | '0' :: 'X' :: rest =>
    if rest.isEmpty then none else parseDigitsBase 16 digitValHex rest
  | '0' :: rest => parseDigitsBase 8 digitValOct rest
  | cs => parseDigitsBase 10 digitValDec cs

/-- socket.inet_aton as on Linux (glibc): one to four dot-separated
components in C numeric notation, all but the final component below 256,
the final component bounded by the bytes it must fill. -/
def inet_aton (s : String) : Bool :=
  match (splitOnDot s.data).mapM parseIPComp with
  | some [a] => decide (a < 4294967296)
  | some [a, b] => decide (a < 256) && decide (b < 16777216)
  | some [a, b, c] => decide (a < 256) && decide (b < 256) && decide (c < 65536)
  | some [a, b, c, d] =>
    decide (a < 256) && decide (b < 256) && decide (c < 256) && decide (d < 256)
  | _ => false

/- ---------------- _validateIP and _getExternalIP ---------------- -/

/-- The message printed by _validateIP before _handleError terminates. -/
def invalidIPMsg (ip : String) : String :=
  "The supplied IP address \"" ++ ip ++ "\" is invalid."

/-- _validateIP: bail out (fatal) if the input is not accepted by
socket.inet_aton, otherwise return normally. -/
def validateIP (ip : String) : Except String Unit :=
  if inet_aton ip then .ok () else .error (invalidIPMsg ip)

/-- Python str.strip: drop ASCII whitespace from both ends. -/
def isSpaceChar (c : Char) : Bool :=
  c.toNat = 32 || (9 ≤ c.toNat && c.toNat ≤ 13)

/-- Python str.strip on a string. -/
def pyStrip (s : String) : String :=
  ⟨((s.data.dropWhile isSpaceChar).reverse.dropWhile isSpaceChar).reverse⟩

/-- _getExternalIP: fetch the body of the IP-finder URL, strip it,
validate it as an IP, and return it; any fetch failure is fatal. -/
def getExternalIP (env : Env) : Except String String :=
  match env.extIP with
  | none => .error "Could not determine your external IP address."
  | some raw =>
    match validateIP (pyStrip raw) with
    | .ok _ => .ok (pyStrip raw)
    | .error m => .error m

/- ---------------- _linodeAPICall ---------------- -/

/-- The first line of the aggregated API-error report. -/
def apiErrorHeader : String :=
  "The Linode API call failed with the following error(s)."

/-- The for-loop of _linodeAPICall over ERRORARRAY: appends one line per
entry (message plus numeric code); a malformed entry raises. -/
def appendErrLines (acc : String) : List JVal → Except String String
  | [] => .ok acc
  | e :: rest =>
    match pyIndex e "ERRORMESSAGE" with
    | .error m => .error m
    | .ok (.jstr msg) =>
      match pyIndex e "ERRORCODE" with
      | .error m => .error m
      | .ok c =>
        appendErrLines (acc ++ ("\n\t" ++ msg ++ " (Error Code: " ++ pyStr c ++ ")")) rest
    | .ok _ => .error "TypeError: can only concatenate str to str"

/-- _linodeAPICall, value part: merge the api_key into the parameters,
issue the request, handle transport failure, JSON parse failure and a
non-empty ERRORARRAY (each fatal); otherwise return the parsed body. -/
def linodeAPIResult (env : Env) (apiKey : String) (apiParams : List (String × String)) : RunResult JVal :=
  match env.net (dictSet apiParams "api_key" apiKey) with
  | .transportFail => .fatal "An error occurred while connecting to the Linode API."
  | .badJson => .fatal "Couldn\x27t parse JSON response from Linode API."
  | .json v =>
    match pyIndex v "ERRORARRAY" with
    | .error e => .exn e
    | .ok ea =>
      match pyLen ea with
      | .error e => .exn e
      | .ok n =>
        if n > 0 then
          match pyIterForScan ea with
          | .error e => .exn e
          | .ok errs =>
            match appendErrLines apiErrorHeader errs with
            | .error e => .exn e
            | .ok msg => .fatal msg
        else .ok v

/-- _linodeAPICall with its side effect: exactly one provider request
(carrying the merged parameters) is attempted per call. -/
def linodeAPICall (env : Env) (apiKey : String) (apiParams : List (String × String)) :
    RunResult JVal × List Event :=
  (linodeAPIResult env apiKey apiParams,
   [Event.apiCall (dictSet apiParams "api_key" apiKey)])

/- ---------------- _normalizeDomainID ---------------- -/

/-- The fatal message of _normalizeDomainID when no domain matches. -/
def domainNotFoundMsg (candidate : String) : String :=
  "The supplied Domain ID/domain name \"" ++ candidate ++
    "\" is invalid or is not associated with the supplied Linode API key."

/-- The for-loop of _normalizeDomainID over the DATA list: return the
stringified DOMAINID of the first entry whose stringified DOMAINID or
whose DOMAIN equals the candidate; fatal when the list is exhausted. -/
def scanDomains (candidate : String) : List JVal → RunResult String
  | [] => .fatal (domainNotFoundMsg candidate)
  | d :: rest =>
    match pyIndex d "DOMAINID" with
    | .error e => .exn e
    | .ok idv =>
      if pyStr idv == candidate then .ok (pyStr idv)
      else
        match pyIndex d "DOMAIN" with
        | .error e => .exn e
        | .ok namev =>
          if jvalEqStr namev candidate then .ok (pyStr idv)
          else scanDomains candidate rest

/-- Body of _normalizeDomainID applied to a successfully returned
response object: fetch DATA and scan it. -/
def domainLookup (candidate : String) (v : JVal) : RunResult String :=
  match pyIndex v "DATA" with
  | .error e => .exn e
  | .ok data =>
    match pyIterForScan data with
    | .error e => .exn e
    | .ok doms => scanDomains candidate doms

/-- The query parameters of the domain.list request. -/
def domainListParams (apiKey : String) : List (String × String) :=
  dictSet [("api_action", "domain.list")] "api_key" apiKey

/-- _normalizeDomainID: one domain.list call, then a scan of the
returned domain list for the candidate ID or name. -/
def normalizeDomainID (env : Env) (apiKey candidate : String) : RunResult String × List Event :=
  let call := linodeAPICall env apiKey [("api_action", "domain.list")]
  (call.1.bind (domainLookup candidate), call.2)

/- ---------------- _normalizeResourceID ---------------- -/

/-- The fatal message of _normalizeResourceID when no record matches. -/
def resourceNotFoundMsg (domainID candidate : String) : String :=
  "The supplied Resource ID/name \"" ++ candidate ++
    "\" is invalid or is not associated with Domain ID \"" ++ domainID ++ "\"."

/-- The for-loop of _normalizeResourceID over the DATA list: lowercase
the TYPE, stringify the RESOURCEID, and return the first record of type
a whose stringified RESOURCEID or NAME equals the candidate. -/
def scanResources (domainID candidate : String) : List JVal → RunResult String
  | [] => .fatal (resourceNotFoundMsg domainID candidate)
  | r :: rest =>
    match pyIndex r "TYPE" with
    | .error e => .exn e
    | .ok (.jstr t) =>
      match pyIndex r "RESOURCEID" with
      | .error e => .exn e
      | .ok idv =>
        if pyLower t == "a" then
          if pyStr idv == candidate then .ok (pyStr idv)
          else
            match pyIndex r "NAME" with
            | .error e => .exn e
            | .ok namev =>
              if jvalEqStr namev candidate then .ok (pyStr idv)
              else scanResources domainID candidate rest
        else scanResources domainID candidate rest
    | .ok _ => .exn "AttributeError: object has no attribute lower"

/-- Body of _normalizeResourceID applied to a successfully returned
response object: fetch DATA and scan it. -/
def resourceLookup (domainID candidate : String) (v : JVal) : RunResult String :=
  match pyIndex v "DATA" with
  | .error e => .exn e
  | .ok data =>
    match pyIterForScan data with
    | .error e => .exn e
    | .ok rs => scanResources domainID candidate rs

/-- The query parameters of the domain.resource.list request. -/
def resourceListParams (apiKey domainID : String) : List (String × String) :=
  dictSet [("api_action", "domain.resource.list"), ("DomainID", domainID)] "api_key" apiKey

/-- _normalizeResourceID: one domain.resource.list call for the given
domain, then a scan of the returned records for the candidate. -/
def normalizeResourceID (env : Env) (apiKey domainID candidate : String) :
    RunResult String × List Event :=
  let call := linodeAPICall env apiKey
    [("api_action", "domain.resource.list"), ("DomainID", domainID)]
  (call.1.bind (resourceLookup domainID candidate), call.2)

/- ---------------- _updateDynDNS ---------------- -/

/-- The query parameters of the domain.resource.update request. -/
def updateParams (apiKey domainID resourceID target : String) : List (String × String) :=
  dictSet [("api_action", "domain.resource.update"), ("DomainID", domainID),
           ("ResourceID", resourceID), ("target", target)] "api_key" apiKey

/-- _updateDynDNS: build the update parameters, validate the target IP
(fatal before any request when invalid), then make the update call and
succeed silently. -/
def updateDynDNS (env : Env) (apiKey domainID resourceID target : String) :
    RunResult Unit × List Event :=
  match validateIP target with
  | .error m => (.fatal m, [])
  | .ok _ =>
    let call := linodeAPICall env apiKey
      [("api_action", "domain.resource.update"), ("DomainID", domainID),
       ("ResourceID", resourceID), ("target", target)]
    (call.1.bind (fun _ => .ok ()), call.2)

/- ---------------- _main ---------------- -/

/-- The parsed command line: positional apiKey, domainID and resourceID,
and the optional -ip flag. -/
structure Args where
  apiKey : String
  domainID : String
  resourceID : String
  ip : Option String

/-- The configparser cache: sections (keyed by the composite cache key)
holding option-value pairs. -/
abbrev Cache := List (String × List (String × String))

/-- The desired target IP: the -ip flag when given, otherwise the
external-IP lookup. -/
def desiredIP (env : Env) (args : Args) : Except String String :=
  match args.ip with
  | some i => .ok i
  | none => getExternalIP env

/-- The composite cache key: unnormalized resource input, a dot, then
the unnormalized domain input. -/
def cacheKey (args : Args) : String := args.resourceID ++ "." ++ args.domainID

/-- The cache-hit test of _main: the section exists, holds an ip option,
and that option equals the desired IP exactly. -/
def cacheHit (cache : Cache) (key ip : String) : Bool :=
  match List.lookup key cache with
  | some sect =>
    match List.lookup "ip" sect with
    | some v => v == ip
    | none => false
  | none => false

/-- The IP recorded in the cache under a key, when present. -/
def cacheStoredIP (cache : Cache) (key : String) : Option String :=
  (List.lookup key cache).bind (fun sect => List.lookup "ip" sect)

/-- cache[key] = empty section followed by cache[key][ip] = ip: replace
the section in place (section keys are unique) or append it. -/
def cacheSet (cache : Cache) (key ip : String) : Cache :=
  match cache with
  | [] => [(key, [("ip", ip)])]
  | (a, b) :: rest =>
    if a == key then (key, [("ip", ip)]) :: rest else (a, b) :: cacheSet rest key ip

/-- The informational message of the cache-hit skip path. -/
def alreadyCurrentMsg (ip resourceInput domainInput : String) : String :=
  "The target IP address \"" ++ ip ++ "\" is already current for Resource ID \"" ++
    resourceInput ++ "\" with Domain ID \"" ++ domainInput ++ "\"."

/-- The final message of a successful update. -/
def updatedMsg (ip resourceInput domainInput : String) : String :=
  "The target IP address for Resource ID \"" ++ resourceInput ++
    "\" with Domain ID \"" ++ domainInput ++ "\" was successfully updated to \"" ++ ip ++ "\"."

/-- _main after argument parsing: determine the desired IP, check the
cache under the unnormalized composite key and skip on a hit; otherwise
resolve the domain, resolve the resource, perform the update, and only
then write the cache.  Returns the outcome, the event trace, and the
final cache contents. -/
def mainRun (env : Env) (args : Args) (cache : Cache) :
    RunResult Unit × List Event × Cache :=
  match desiredIP env args with
  | .error m => (.fatal m, [], cache)
  | .ok ip =>
    if cacheHit cache (cacheKey args) ip then
      (.exitSuccess (alreadyCurrentMsg ip args.resourceID args.domainID), [], cache)
    else
      let dcall := normalizeDomainID env args.apiKey args.domainID
      match dcall.1 with
      | .ok domainId =>
        let rcall := normalizeResourceID env args.apiKey domainId args.resourceID
        match rcall.1 with
        | .ok resourceId =>
          let ucall := updateDynDNS env args.apiKey domainId resourceId ip
          match ucall.1 with
          | .ok _ =>
            (.exitSuccess (updatedMsg ip args.resourceID args.domainID),
             dcall.2 ++ rcall.2 ++ ucall.2 ++ [Event.cacheWrite (cacheKey args) ip],
             cacheSet cache (cacheKey args) ip)
          | r => (r.asUnit, dcall.2 ++ rcall.2 ++ ucall.2, cache)
        | r => (r.asUnit, dcall.2 ++ rcall.2, cache)
      | r => (r.asUnit, dcall.2, cache)

/- ---------------- structured provider data ----------------

The spec describes provider responses as lists of structured records.
These wrappers build the JSON shape the provider actually returns, and
the resolve* definitions below state the resolution rules in the words
of the spec, to be compared with the scans embedded from the source. -/

/-- One entry of the domain.list DATA array: a numeric provider ID and a
human-readable name. -/
structure DomainEntry where
  id : Int
  name : String
deriving DecidableEq

/-- The JSON object the provider returns for a domain entry. -/
def DomainEntry.toJVal (d : DomainEntry) : JVal :=
  .jobj [("DOMAINID", .jnum d.id), ("DOMAIN", .jstr d.name)]

/-- One entry of the domain.resource.list DATA array: a numeric provider
ID, a record type and a name. -/
structure ResourceEntry where
  id : Int
  rtype : String
  name : String
deriving DecidableEq

/-- The JSON object the provider returns for a resource entry. -/
def ResourceEntry.toJVal (r : ResourceEntry) : JVal :=
  .jobj [("RESOURCEID", .jnum r.id), ("TYPE", .jstr r.rtype), ("NAME", .jstr r.name)]

/-- One structured API error: numeric code and message. -/
structure APIErr where
  message : String
  code : Int
deriving DecidableEq

/-- The JSON object the provider returns for one ERRORARRAY entry. -/
def APIErr.toJVal (e : APIErr) : JVal :=
  .jobj [("ERRORMESSAGE", .jstr e.message), ("ERRORCODE", .jnum e.code)]

/-- A successful list-action response body: empty ERRORARRAY and the
given DATA array. -/
def listResponse (ds : List JVal) : JVal :=
  .jobj [("ERRORARRAY", .jarr []), ("DATA", .jarr ds)]

/-- Modelled from the spec words: domain resolution returns the
stringified ID of the first entry in provider order whose stringified
ID or whose name equals the candidate, by exact string equality. -/
def resolveDomainSpec (candidate : String) (l : List DomainEntry) : Option String :=
  (l.find? (fun d => toString d.id == candidate || d.name == candidate)).map
    (fun d => toString d.id)

/-- The run outcome the spec assigns to domain resolution: the resolved
ID, or the fatal unknown-domain report. -/
def resolveDomainRun (candidate : String) (l : List DomainEntry) : RunResult String :=
  match resolveDomainSpec candidate l with
  | some i => .ok i
  | none => .fatal (domainNotFoundMsg candidate)

/-- Modelled from the spec words: a record matches only if its type
compares case-insensitively equal to the address-record type and its
stringified ID or its name equals the candidate; first match wins. -/
def resourceMatches (candidate : String) (r : ResourceEntry) : Bool :=
  pyLower r.rtype == "a" && (toString r.id == candidate || r.name == candidate)

/-- Modelled from the spec words: resource resolution returns the first
matching record in provider order. -/
def resolveResourceSpec (candidate : String) (l : List ResourceEntry) : Option ResourceEntry :=
  l.find? (resourceMatches candidate)

/-- The run outcome the spec assigns to resource resolution. -/
def resolveResourceRun (domainID candidate : String) (l : List ResourceEntry) : RunResult String :=
  match resolveResourceSpec candidate l with
  | some r => .ok (toString r.id)
  | none => .fatal (resourceNotFoundMsg domainID candidate)

/-- One line of the aggregated error report, as the source builds it. -/
def apiErrLine (e : APIErr) : String :=
  "\n\t" ++ e.message ++ " (Error Code: " ++ toString e.code ++ ")"

/-- The full aggregated error report: the header followed by one line
per ERRORARRAY entry, in response order. -/
def apiErrorMsg (errs : List APIErr) : String :=
  List.foldl (fun acc e => acc ++ apiErrLine e) apiErrorHeader errs

/- ---------------- helper lemmas ---------------- -/

theorem pyIndex_domainEntry_id (d : DomainEntry) :
    pyIndex (DomainEntry.toJVal d) "DOMAINID" = .ok (.jnum d.id) := rfl

theorem pyIndex_domainEntry_name (d : DomainEntry) :
    pyIndex (DomainEntry.toJVal d) "DOMAIN" = .ok (.jstr d.name) := rfl

theorem pyIndex_resourceEntry_id (r : ResourceEntry) :
    pyIndex (ResourceEntry.toJVal r) "RESOURCEID" = .ok (.jnum r.id) := rfl

theorem pyIndex_resourceEntry_type (r : ResourceEntry) :
    pyIndex (ResourceEntry.toJVal r) "TYPE" = .ok (.jstr r.rtype) := rfl

theorem pyIndex_resourceEntry_name (r : ResourceEntry) :
    pyIndex (ResourceEntry.toJVal r) "NAME" = .ok (.jstr r.name) := rfl


theorem pyStr_jnum (n : Int) : pyStr (.jnum n) = toString n := rfl

theorem jvalEqStr_jstr (s c : String) : jvalEqStr (.jstr s) c = (s == c) := rfl

theorem scanDomains_map (candidate : String) (l : List DomainEntry) :
    scanDomains candidate (l.map DomainEntry.toJVal) = resolveDomainRun candidate l := by
  induction l with
  | nil => rfl
  | cons d rest ih =>
    rw [List.map_cons, scanDomains, pyIndex_domainEntry_id]
    simp only [pyStr_jnum, pyIndex_domainEntry_name, jvalEqStr_jstr]
    by_cases hid : (toString d.id == candidate) = true
    · have hfind : List.find? (fun x => toString x.id == candidate || x.name == candidate)
          (d :: rest) = some d := List.find?_cons_of_pos _ (by simp [hid])
      simp only [hid, if_true, resolveDomainRun, resolveDomainSpec, hfind, Option.map_some']
    · by_cases hname : (d.name == candidate) = true
      · have hfind : List.find? (fun x => toString x.id == candidate || x.name == candidate)
            (d :: rest) = some d := List.find?_cons_of_pos _ (by simp [hname])
        simp only [hid, if_false, hname, if_true, resolveDomainRun, resolveDomainSpec, hfind,
          Option.map_some']
        simp
      · have hfind : List.find? (fun x => toString x.id == candidate || x.name == candidate)
            (d :: rest) = List.find? (fun x => toString x.id == candidate || x.name == candidate) rest := by
          refine List.find?_cons_of_neg _ ?_
          simp at hid hname ⊢
          exact ⟨hid, hname⟩
        simp only [hid, if_false, hname, ih, resolveDomainRun, resolveDomainSpec, hfind]
        simp

theorem scanResources_map (domainID candidate : String) (l : List ResourceEntry) :
    scanResources domainID candidate (l.map ResourceEntry.toJVal) =
      resolveResourceRun domainID candidate l := by
  induction l with
  | nil => rfl
  | cons r rest ih =>
    rw [List.map_cons, scanResources, pyIndex_resourceEntry_type]
    simp only [pyIndex_resourceEntry_id, pyStr_jnum, pyIndex_resourceEntry_name, jvalEqStr_jstr]
    by_cases htype : (pyLower r.rtype == "a") = true
    · by_cases hid : (toString r.id == candidate) = true
      · have hfind : List.find? (resourceMatches candidate) (r :: rest) = some r :=
          List.find?_cons_of_pos _ (by simp [resourceMatches, htype, hid])
        simp only [htype, if_true, hid, resolveResourceRun, resolveResourceSpec, hfind]
      · by_cases hname : (r.name == candidate) = true
        · have hfind : List.find? (resourceMatches candidate) (r :: rest) = some r :=
            List.find?_cons_of_pos _ (by simp [resourceMatches, htype, hname])
          simp only [htype, if_true, hid, hname, resolveResourceRun, resolveResourceSpec, hfind]
          simp
        · have hfind : List.find? (resourceMatches candidate) (r :: rest) =
              List.find? (resourceMatches candidate) rest := by
            refine List.find?_cons_of_neg _ ?_
            simp at hid hname ⊢
            simp [resourceMatches, hid, hname]
          simp only [htype, if_true, hid, hname, ih, resolveResourceRun,
            resolveResourceSpec, hfind]
          simp
    · have hfind : List.find? (resourceMatches candidate) (r :: rest) =
          List.find? (resourceMatches candidate) rest := by
        refine List.find?_cons_of_neg _ ?_
        simp at htype
        simp [resourceMatches, htype]
      simp only [htype, ih, resolveResourceRun, resolveResourceSpec, hfind]
      simp

theorem appendErrLines_map (acc : String) (errs : List APIErr) :
    appendErrLines acc (errs.map APIErr.toJVal) =
      .ok (List.foldl (fun a e => a ++ apiErrLine e) acc errs) := by
  induction errs generalizing acc with
  | nil => rfl
  | cons e rest ih => exact ih (acc ++ apiErrLine e)

theorem linodeAPIResult_listResponse (env : Env) (k : String) (ps : List (String × String))
    (ds : List JVal) (h : env.net (dictSet ps "api_key" k) = .json (listResponse ds)) :
    linodeAPIResult env k ps = .ok (listResponse ds) := by
  unfold linodeAPIResult
  rw [h]
  rfl

theorem linodeAPIResult_errors (env : Env) (k : String) (ps : List (String × String))
    (v : JVal) (errs : List APIErr) (hne : errs ≠ [])
    (hv : pyIndex v "ERRORARRAY" = .ok (.jarr (errs.map APIErr.toJVal)))
    (hnet : env.net (dictSet ps "api_key" k) = .json v) :
    linodeAPIResult env k ps = .fatal (apiErrorMsg errs) := by
  match errs, hne with
  | e :: rest, _ =>
    unfold linodeAPIResult
    rw [hnet]
    simp only [hv]
    have hA := appendErrLines_map apiErrorHeader (e :: rest)
    rw [List.map_cons] at hA
    simp [hA, pyLen, pyIterForScan, apiErrorMsg]

theorem scanDomains_ne_exitSuccess (c : String) (l : List JVal) (m : String) :
    scanDomains c l ≠ .exitSuccess m := by
  induction l with
  | nil => simp [scanDomains]
  | cons d rest ih =>
    rw [scanDomains]
    rcases h1 : pyIndex d "DOMAINID" with e | idv
    · simp
    · simp only []
      split
      · simp
      · rcases h2 : pyIndex d "DOMAIN" with e2 | namev
        · simp
        · simp only []
          split
          · simp
          · exact ih

theorem scanResources_ne_exitSuccess (d c : String) (l : List JVal) (m : String) :
    scanResources d c l ≠ .exitSuccess m := by
  induction l with
  | nil => simp [scanResources]
  | cons r rest ih =>
    rw [scanResources]
    rcases h1 : pyIndex r "TYPE" with e | tv
    · simp
    · match tv with
      | .jstr t =>
        simp only []
        rcases h2 : pyIndex r "RESOURCEID" with e2 | idv
        · simp
        · simp only []
          split
          · split
            · simp
            · rcases h3 : pyIndex r "NAME" with e3 | namev
              · simp
              · simp only []
                split
                · simp
                · exact ih
          · exact ih
      | .jnum n => simp
      | .jarr a => simp
      | .jobj o => simp

theorem domainLookup_ne_exitSuccess (c : String) (v : JVal) (m : String) :
    domainLookup c v ≠ .exitSuccess m := by
  unfold domainLookup
  rcases pyIndex v "DATA" with e | data
  · simp
  · simp only []
    rcases pyIterForScan data with e2 | doms
    · simp
    · exact scanDomains_ne_exitSuccess c doms m

theorem resourceLookup_ne_exitSuccess (d c : String) (v : JVal) (m : String) :
    resourceLookup d c v ≠ .exitSuccess m := by
  unfold resourceLookup
  rcases pyIndex v "DATA" with e | data
  · simp
  · simp only []
    rcases pyIterForScan data with e2 | rs
    · simp
    · exact scanResources_ne_exitSuccess d c rs m

theorem linodeAPIResult_ne_exitSuccess (env : Env) (k : String) (ps : List (String × String))
    (m : String) : linodeAPIResult env k ps ≠ .exitSuccess m := by
  unfold linodeAPIResult
  rcases env.net (dictSet ps "api_key" k) with _ | _ | v
  · simp
  · simp
  · simp only []
    rcases pyIndex v "ERRORARRAY" with e | ea
    · simp
    · simp only []
      rcases pyLen ea with e2 | n
      · simp
      · simp only []
        split
        · rcases pyIterForScan ea with e3 | errs
          · simp
          · simp only []
            rcases appendErrLines apiErrorHeader errs with e4 | msg
            · simp
            · simp
        · simp

theorem normalizeDomainID_fst_ne_exitSuccess (env : Env) (k c m : String) :
    (normalizeDomainID env k c).1 ≠ .exitSuccess m := by
  show (linodeAPIResult env k [("api_action", "domain.list")]).bind (domainLookup c) ≠ _
  rcases hr : linodeAPIResult env k [("api_action", "domain.list")] with v | m2 | m2 | m2
  · exact domainLookup_ne_exitSuccess c v m
  · simp [RunResult.bind]
  · exact absurd hr (linodeAPIResult_ne_exitSuccess env k _ m2)
  · simp [RunResult.bind]

theorem normalizeResourceID_fst_ne_exitSuccess (env : Env) (k d c m : String) :
    (normalizeResourceID env k d c).1 ≠ .exitSuccess m := by
  show (linodeAPIResult env k
    [("api_action", "domain.resource.list"), ("DomainID", d)]).bind (resourceLookup d c) ≠ _
  rcases hr : linodeAPIResult env k [("api_action", "domain.resource.list"), ("DomainID", d)]
    with v | m2 | m2 | m2
  · exact resourceLookup_ne_exitSuccess d c v m
  · simp [RunResult.bind]
  · exact absurd hr (linodeAPIResult_ne_exitSuccess env k _ m2)
  · simp [RunResult.bind]

theorem updateDynDNS_fst_ne_exitSuccess (env : Env) (k d r t m : String) :
    (updateDynDNS env k d r t).1 ≠ .exitSuccess m := by
  unfold updateDynDNS
  rcases hv : validateIP t with e | u
  · simp
  · simp only [linodeAPICall]
    rcases hr : linodeAPIResult env k [("api_action", "domain.resource.update"), ("DomainID", d),
      ("ResourceID", r), ("target", t)] with v | m2 | m2 | m2
    · simp [hr, RunResult.bind]
    · simp [hr, RunResult.bind]
    · exact absurd hr (linodeAPIResult_ne_exitSuccess env k _ m2)
    · simp [hr, RunResult.bind]

theorem normalizeDomainID_snd (env : Env) (k c : String) :
    (normalizeDomainID env k c).2 = [Event.apiCall (domainListParams k)] := rfl

theorem normalizeResourceID_snd (env : Env) (k d c : String) :
    (normalizeResourceID env k d c).2 = [Event.apiCall (resourceListParams k d)] := rfl

/-- _updateDynDNS does exactly one of two things: reject the IP with no
request at all, or issue exactly one update request. -/
theorem updateDynDNS_cases (env : Env) (k d r t : String) :
    (inet_aton t = false ∧ updateDynDNS env k d r t = (.fatal (invalidIPMsg t), [])) ∨
    (inet_aton t = true ∧
      updateDynDNS env k d r t =
        ((linodeAPIResult env k [("api_action", "domain.resource.update"), ("DomainID", d),
            ("ResourceID", r), ("target", t)]).bind (fun _ => .ok ()),
         [Event.apiCall (updateParams k d r t)])) := by
  by_cases h : inet_aton t = true
  · right
    refine ⟨h, ?_⟩
    unfold updateDynDNS validateIP
    rw [h]
    rfl
  · left
    refine ⟨by simpa using h, ?_⟩
    unfold updateDynDNS validateIP
    simp only [h]
    rfl

theorem cacheHit_iff (cache : Cache) (key ip : String) :
    cacheHit cache key ip = true ↔ cacheStoredIP cache key = some ip := by
  unfold cacheHit cacheStoredIP
  rcases h1 : List.lookup key cache with _ | sect
  · simp
  · rcases h2 : List.lookup "ip" sect with _ | v
    · simp [h2]
    · simp [h2, beq_iff_eq]

theorem lookup_cacheSet_ne (cache : Cache) (key ip k : String) (h : ¬ k = key) :
    List.lookup k (cacheSet cache key ip) = List.lookup k cache := by
  induction cache with
  | nil =>
    simp [cacheSet, List.lookup, beq_false_of_ne h]
  | cons p rest ih =>
    rcases p with ⟨a, b⟩
    rw [cacheSet]
    by_cases ha : (a == key) = true
    · rw [if_pos ha]
      have hak : k ≠ a := fun hk => h (hk ▸ beq_iff_eq.mp ha)
      simp [List.lookup, beq_false_of_ne h, beq_false_of_ne hak]
    · rw [if_neg ha]
      by_cases hk : (k == a) = true
      · simp [List.lookup, hk]
      · simp only [List.lookup, hk]
        exact ih

/-- Master case analysis of a run whose desired IP was determined: a
cache hit skips with no events, and otherwise the run either fully
succeeds with exactly three API calls followed by the cache write, or
fails with an unchanged cache and a trace of API calls only, starting
with the domain.list call. -/
theorem mainRun_shape (env : Env) (args : Args) (cache : Cache) (ip : String)
    (hip : desiredIP env args = .ok ip) :
    (cacheHit cache (cacheKey args) ip = true ∧
       mainRun env args cache =
         (.exitSuccess (alreadyCurrentMsg ip args.resourceID args.domainID), [], cache)) ∨
    (cacheHit cache (cacheKey args) ip = false ∧
      ((∃ d rid, (normalizeDomainID env args.apiKey args.domainID).1 = .ok d ∧
          (normalizeResourceID env args.apiKey d args.resourceID).1 = .ok rid ∧
          (updateDynDNS env args.apiKey d rid ip).1 = .ok () ∧
          mainRun env args cache =
            (.exitSuccess (updatedMsg ip args.resourceID args.domainID),
             [Event.apiCall (domainListParams args.apiKey),
              Event.apiCall (resourceListParams args.apiKey d),
              Event.apiCall (updateParams args.apiKey d rid ip),
              Event.cacheWrite (cacheKey args) ip],
             cacheSet cache (cacheKey args) ip)) ∨
       (∃ res tail, mainRun env args cache =
          (res, Event.apiCall (domainListParams args.apiKey) :: tail, cache) ∧
          RunResult.isExitSuccessB res = false ∧
          ∀ e ∈ tail, ∃ ps, e = Event.apiCall ps))) := by
  by_cases hc : cacheHit cache (cacheKey args) ip = true
  · left
    refine ⟨hc, ?_⟩
    simp only [mainRun, hip]
    rw [if_pos hc]
  · right
    refine ⟨by simpa using hc, ?_⟩
    simp only [mainRun, hip]
    rw [if_neg hc]
    rcases hd : (normalizeDomainID env args.apiKey args.domainID).1 with d | m | m | m
    · simp only [hd]
      rcases hr : (normalizeResourceID env args.apiKey d args.resourceID).1 with rid | m | m | m
      · simp only [hr]
        rcases updateDynDNS_cases env args.apiKey d rid ip with ⟨hbad, hup⟩ | ⟨hgood, hup⟩
        · right
          rw [hup]
          refine ⟨.fatal (invalidIPMsg ip), [Event.apiCall (resourceListParams args.apiKey d)],
            ?_, rfl, ?_⟩
          · simp [normalizeDomainID_snd, normalizeResourceID_snd, RunResult.asUnit]
          · intro e he
            simp at he
            exact ⟨_, he⟩
        · rcases hu : (updateDynDNS env args.apiKey d rid ip).1 with u | m | m | m
          · left
            refine ⟨d, rid, rfl, hr, hu, ?_⟩
            simp only [hu]
            rw [hup]
            simp [normalizeDomainID_snd, normalizeResourceID_snd]
          · right
            simp only [hu]
            refine ⟨.fatal m, [Event.apiCall (resourceListParams args.apiKey d),
              Event.apiCall (updateParams args.apiKey d rid ip)], ?_, rfl, ?_⟩
            · rw [hup]
              simp [normalizeDomainID_snd, normalizeResourceID_snd, RunResult.asUnit]
            · intro e he
              simp at he
              rcases he with he | he <;> exact ⟨_, he⟩
          · exact absurd hu (updateDynDNS_fst_ne_exitSuccess env args.apiKey d rid ip m)
          · right
            simp only [hu]
            refine ⟨.exn m, [Event.apiCall (resourceListParams args.apiKey d),
              Event.apiCall (updateParams args.apiKey d rid ip)], ?_, rfl, ?_⟩
            · rw [hup]
              simp [normalizeDomainID_snd, normalizeResourceID_snd, RunResult.asUnit]
            · intro e he
              simp at he
              rcases he with he | he <;> exact ⟨_, he⟩
      · right
        simp only [hr]
        refine ⟨.fatal m, [Event.apiCall (resourceListParams args.apiKey d)], ?_, rfl, ?_⟩
        · simp [normalizeDomainID_snd, normalizeResourceID_snd, RunResult.asUnit]
        · intro e he
          simp at he
          exact ⟨_, he⟩
      · exact absurd hr (normalizeResourceID_fst_ne_exitSuccess env args.apiKey d args.resourceID m)
      · right
        simp only [hr]
        refine ⟨.exn m, [Event.apiCall (resourceListParams args.apiKey d)], ?_, rfl, ?_⟩
        · simp [normalizeDomainID_snd, normalizeResourceID_snd, RunResult.asUnit]
        · intro e he
          simp at he
          exact ⟨_, he⟩
    · right
      simp only [hd]
      refine ⟨.fatal m, [], ?_, rfl, by simp⟩
      simp [normalizeDomainID_snd, RunResult.asUnit]
    · exact absurd hd (normalizeDomainID_fst_ne_exitSuccess env args.apiKey args.domainID m)
    · right
      simp only [hd]
      refine ⟨.exn m, [], ?_, rfl, by simp⟩
      simp [normalizeDomainID_snd, RunResult.asUnit]

/-- With a well-formed list response on the wire, _normalizeDomainID
computes exactly the resolution the spec describes. -/
theorem normalizeDomainID_response (env : Env) (k c : String) (l : List DomainEntry)
    (hnet : env.net (domainListParams k) = .json (listResponse (l.map DomainEntry.toJVal))) :
    (normalizeDomainID env k c).1 = resolveDomainRun c l := by
  have h' : env.net (dictSet [("api_action", "domain.list")] "api_key" k) =
      .json (listResponse (l.map DomainEntry.toJVal)) := hnet
  have h1 := linodeAPIResult_listResponse env k [("api_action", "domain.list")] _ h'
  show (linodeAPIResult env k [("api_action", "domain.list")]).bind (domainLookup c) = _
  rw [h1]
  show scanDomains c (l.map DomainEntry.toJVal) = _
  exact scanDomains_map c l

/-- With a well-formed list response on the wire, _normalizeResourceID
computes exactly the resolution the spec describes. -/
theorem normalizeResourceID_response (env : Env) (k d c : String) (l : List ResourceEntry)
    (hnet : env.net (resourceListParams k d) = .json (listResponse (l.map ResourceEntry.toJVal))) :
    (normalizeResourceID env k d c).1 = resolveResourceRun d c l := by
  have h' : env.net (dictSet [("api_action", "domain.resource.list"), ("DomainID", d)]
      "api_key" k) = .json (listResponse (l.map ResourceEntry.toJVal)) := hnet
  have h1 := linodeAPIResult_listResponse env k
    [("api_action", "domain.resource.list"), ("DomainID", d)] _ h'
  show (linodeAPIResult env k [("api_action", "domain.resource.list"), ("DomainID", d)]).bind
    (resourceLookup d c) = _
  rw [h1]
  show scanResources d c (l.map ResourceEntry.toJVal) = _
  exact scanResources_map d c l

theorem foldl_append_data_front (f : APIErr → String) (l : List APIErr) (acc : String) :
    acc.data <+: (List.foldl (fun a x => a ++ f x) acc l).data := by
  induction l generalizing acc with
  | nil => exact List.prefix_refl _
  | cons x rest ih =>
    rw [List.foldl_cons]
    refine List.IsPrefix.trans ?_ (ih (acc ++ f x))
    rw [String.data_append]
    exact List.prefix_append _ _

theorem apiErrLine_data_inside (l : List APIErr) (acc : String) (e : APIErr) (he : e ∈ l) :
    (apiErrLine e).data <:+:
      (List.foldl (fun a x => a ++ apiErrLine x) acc l).data := by
  induction l generalizing acc with
  | nil => cases he
  | cons x rest ih =>
    rw [List.foldl_cons]
    rcases List.mem_cons.mp he with he | he
    · subst he
      have h1 : (apiErrLine e).data <:+ (acc ++ apiErrLine e).data := by
        rw [String.data_append]
        exact List.suffix_append _ _
      have h2 : (acc ++ apiErrLine e).data <+:
          (List.foldl (fun a x => a ++ apiErrLine x) (acc ++ apiErrLine e) rest).data :=
        foldl_append_data_front _ rest _
      exact h1.isInfix.trans h2.isInfix
    · exact ih (acc ++ apiErrLine x) he

/- ---------------- concrete worlds used by the witnesses ---------------- -/

/-- A world where the provider is unreachable and the external-IP
service is down; runs that skip never notice. -/
def envOffline : Env := ⟨fun _ => .transportFail, none⟩

/-- A world whose provider answers every request with an empty domain
list. -/
def envNoDomains : Env := ⟨fun _ => .json (listResponse []), none⟩

/-- A provider answering list and update actions for one account with
the domain example.com (ID 100) and one A record home (ID 200). -/
def envProvider : Env :=
  ⟨fun ps =>
    match List.lookup "api_action" ps with
    | some "domain.list" =>
      .json (listResponse [DomainEntry.toJVal ⟨100, "example.com"⟩])
    | some "domain.resource.list" =>
      .json (listResponse [ResourceEntry.toJVal ⟨200, "A", "home"⟩])
    | some "domain.resource.update" => .json (.jobj [("ERRORARRAY", .jarr [])])
    | _ => .transportFail, none⟩

/-- A provider whose domain list has an entry whose ID collides with a
later entry whose name is that same ID. -/
def domainsPrecedence : List DomainEntry := [⟨100, "one"⟩, ⟨200, "100"⟩]

/-- The world serving that colliding domain list. -/
def envDomainsPrecedence : Env :=
  ⟨fun _ => .json (listResponse (domainsPrecedence.map DomainEntry.toJVal)), none⟩

/-- A resource list with a CNAME and an A record sharing one name. -/
def resourcesShared : List ResourceEntry := [⟨300, "CNAME", "home"⟩, ⟨301, "A", "home"⟩]

/-- The world serving that resource list. -/
def envResourcesShared : Env :=
  ⟨fun _ => .json (listResponse (resourcesShared.map ResourceEntry.toJVal)), none⟩

/-- Two structured API errors. -/
def errsPair : List APIErr := [⟨"First error", 5⟩, ⟨"Second error", 7⟩]

/-- A world whose provider reports both errors on every request. -/
def envErrors : Env :=
  ⟨fun _ => .json (.jobj [("ERRORARRAY", .jarr (errsPair.map APIErr.toJVal))]), none⟩

/-- A world whose provider returns a JSON object with no ERRORARRAY. -/
def envNoErrArray : Env := ⟨fun _ => .json (.jobj []), none⟩

/-- A world whose provider returns an empty ERRORARRAY and no DATA. -/
def envEmptyObj : Env := ⟨fun _ => .json (.jobj [("ERRORARRAY", .jarr [])]), none⟩

/-- The command line of the scenario runs: names as identifiers and the
-ip flag set to a valid address. -/
def argsValid : Args := ⟨"KEY", "example.com", "home", some "203.0.113.5"⟩

/-- The cache after a successful run of the scenario. -/
def cacheValid : Cache := [("home.example.com", [("ip", "203.0.113.5")])]

/-- The command line whose -ip flag carries a malformed address. -/
def argsMalformedIP : Args := ⟨"KEY", "example.com", "home", some "not.an.ip"⟩

/-- A cache that already stores that malformed address. -/
def cacheMalformedIP : Cache := [("home.example.com", [("ip", "not.an.ip")])]

/- ---------------- claims ---------------- -/

/-- Claim C4: for every domain list returned by the provider and every
candidate string, domain resolution returns the stringified ID of the
first entry in provider response order whose stringified canonical ID
equals the candidate or whose name equals the candidate, by exact string
equality only (so when a later entry name equals an earlier entry ID,
the earlier entry wins), and fails fatally when nothing matches. -/
theorem claim_c4_domain_resolution_first_match (env : Env) (k c : String)
    (l : List DomainEntry)
    (hnet : env.net (domainListParams k) = .json (listResponse (l.map DomainEntry.toJVal))) :
    (normalizeDomainID env k c).1 = resolveDomainRun c l :=
  normalizeDomainID_response env k c l hnet

theorem claim_c4_witness :
    (normalizeDomainID envDomainsPrecedence "KEY" "100").1 = .ok "100" := by
  have h := claim_c4_domain_resolution_first_match envDomainsPrecedence "KEY" "100"
    domainsPrecedence rfl
  rw [h]
  rfl

/-- Claim C5: resource resolution agrees with the spec rule (first
record, in provider order, whose type is the address type up to case
and whose stringified ID or name equals the candidate), and in
particular any record it returns is of type A and matched the
candidate by ID or name, so a non-A record is never returned. -/
theorem claim_c5_resource_type_filtering (env : Env) (k d c : String)
    (l : List ResourceEntry)
    (hnet : env.net (resourceListParams k d) =
      .json (listResponse (l.map ResourceEntry.toJVal))) :
    (normalizeResourceID env k d c).1 = resolveResourceRun d c l ∧
    (∀ i, (normalizeResourceID env k d c).1 = .ok i →
      ∃ r, resolveResourceSpec c l = some r ∧ r ∈ l ∧ i = toString r.id ∧
        pyLower r.rtype = "a" ∧ (toString r.id = c ∨ r.name = c)) := by
  have heq := normalizeResourceID_response env k d c l hnet
  refine ⟨heq, ?_⟩
  intro i hi
  rw [heq] at hi
  unfold resolveResourceRun at hi
  rcases hf : resolveResourceSpec c l with _ | r
  · rw [hf] at hi
    cases hi
  · rw [hf] at hi
    have hf' : l.find? (resourceMatches c) = some r := hf
    have hp := List.find?_some hf'
    have hmem := List.mem_of_find?_eq_some hf'
    simp only [resourceMatches, Bool.and_eq_true, Bool.or_eq_true, beq_iff_eq] at hp
    refine ⟨r, rfl, hmem, ?_, hp.1, hp.2⟩
    cases hi
    rfl

theorem claim_c5_witness :
    (normalizeResourceID envResourcesShared "KEY" "100" "home").1 = .ok "301" := by
  have h := (claim_c5_resource_type_filtering envResourcesShared "KEY" "100" "home"
    resourcesShared rfl).1
  rw [h]
  rfl

/-- Claim C8: when no entry of the returned domain list matches the
candidate by stringified ID or by name, domain resolution terminates
fatally with the message that interpolates the candidate and refers to
the supplied Linode API key (the credential used for the call). -/
theorem claim_c8_unknown_domain_message (env : Env) (k c : String) (l : List DomainEntry)
    (hnet : env.net (domainListParams k) = .json (listResponse (l.map DomainEntry.toJVal)))
    (hnone : ∀ d ∈ l, toString d.id ≠ c ∧ d.name ≠ c) :
    (normalizeDomainID env k c).1 =
      .fatal ("The supplied Domain ID/domain name \"" ++ c ++
        "\" is invalid or is not associated with the supplied Linode API key.") := by
  have heq := normalizeDomainID_response env k c l hnet
  rw [heq]
  unfold resolveDomainRun resolveDomainSpec
  have hfind : l.find? (fun d => toString d.id == c || d.name == c) = none := by
    rw [List.find?_eq_none]
    intro d hd
    have h := hnone d hd
    simp [h.1, h.2]
  rw [hfind]
  rfl

theorem claim_c8_witness :
    (normalizeDomainID envNoDomains "KEY" "nope.com").1 =
      .fatal ("The supplied Domain ID/domain name \"" ++ "nope.com" ++
        "\" is invalid or is not associated with the supplied Linode API key.") :=
  claim_c8_unknown_domain_message envNoDomains "KEY" "nope.com" [] rfl (by simp)

/-- Claim C6: a parsed response whose ERRORARRAY is non-empty makes the
API client terminate fatally with the single aggregated report (the
header followed by one line per entry, each line carrying that entry
message and numeric code), so no data from the response is ever
returned to the caller. -/
theorem claim_c6_error_aggregation (env : Env) (k : String) (ps : List (String × String))
    (v : JVal) (errs : List APIErr) (hne : errs ≠ [])
    (hv : pyIndex v "ERRORARRAY" = .ok (.jarr (errs.map APIErr.toJVal)))
    (hnet : env.net (dictSet ps "api_key" k) = .json v) :
    linodeAPIResult env k ps = .fatal (apiErrorMsg errs) ∧
    ∀ e ∈ errs, (apiErrLine e).data <:+: (apiErrorMsg errs).data := by
  refine ⟨linodeAPIResult_errors env k ps v errs hne hv hnet, ?_⟩
  intro e he
  exact apiErrLine_data_inside errs apiErrorHeader e he

theorem claim_c6_witness :
    linodeAPIResult envErrors "KEY" [] = .fatal (apiErrorMsg errsPair) ∧
    (apiErrLine ⟨"First error", 5⟩).data <:+: (apiErrorMsg errsPair).data := by
  have h := claim_c6_error_aggregation envErrors "KEY" []
    (.jobj [("ERRORARRAY", .jarr (errsPair.map APIErr.toJVal))]) errsPair
    (by simp [errsPair]) rfl rfl
  exact ⟨h.1, h.2 ⟨"First error", 5⟩ (by simp [errsPair])⟩

/-- Claim C7: a target rejected by the address parser makes
_updateDynDNS terminate fatally with the invalid-IP message before any
provider request: its event trace is empty. -/
theorem claim_c7_validate_before_network (env : Env) (k d r t : String)
    (h : inet_aton t = false) :
    updateDynDNS env k d r t =
      (.fatal ("The supplied IP address \"" ++ t ++ "\" is invalid."), []) := by
  rcases updateDynDNS_cases env k d r t with ⟨_, hup⟩ | ⟨hgood, _⟩
  · exact hup
  · rw [hgood] at h
    cases h

theorem claim_c7_witness :
    updateDynDNS envOffline "KEY" "100" "200" "not-an-ip" =
      (.fatal ("The supplied IP address \"" ++ "not-an-ip" ++ "\" is invalid."), []) :=
  claim_c7_validate_before_network envOffline "KEY" "100" "200" "not-an-ip" (by decide)

/-- Claim C10: a response that is valid JSON but lacks the ERRORARRAY
key makes the API client end in an unhandled key-lookup exception, not
in any of the handled fatal paths; likewise a response with an empty
ERRORARRAY but no DATA key makes domain resolution end in an unhandled
key-lookup exception. -/
theorem claim_c10_unguarded_response_lookups :
    (∀ (env : Env) (k : String) (ps : List (String × String))
        (kvs : List (String × JVal)),
      env.net (dictSet ps "api_key" k) = .json (.jobj kvs) →
      List.lookup "ERRORARRAY" kvs = none →
      linodeAPIResult env k ps = .exn ("KeyError: " ++ "ERRORARRAY")) ∧
    (∀ (env : Env) (k c : String) (kvs : List (String × JVal)),
      env.net (domainListParams k) = .json (.jobj kvs) →
      List.lookup "ERRORARRAY" kvs = some (.jarr []) →
      List.lookup "DATA" kvs = none →
      (normalizeDomainID env k c).1 = .exn ("KeyError: " ++ "DATA")) := by
  constructor
  · intro env k ps kvs hnet hmiss
    unfold linodeAPIResult
    rw [hnet]
    simp [pyIndex, hmiss]
  · intro env k c kvs hnet herr hdata
    show (linodeAPIResult env k [("api_action", "domain.list")]).bind (domainLookup c) = _
    have hnet' : env.net (dictSet [("api_action", "domain.list")] "api_key" k) =
        .json (.jobj kvs) := hnet
    have h1 : linodeAPIResult env k [("api_action", "domain.list")] = .ok (.jobj kvs) := by
      unfold linodeAPIResult
      rw [hnet']
      simp [pyIndex, herr, pyLen]
    rw [h1]
    show domainLookup c (.jobj kvs) = _
    unfold domainLookup
    simp [pyIndex, hdata]

theorem claim_c10_witness :
    linodeAPIResult envNoErrArray "KEY" [] = .exn ("KeyError: " ++ "ERRORARRAY") ∧
    (normalizeDomainID envEmptyObj "KEY" "example.com").1 = .exn ("KeyError: " ++ "DATA") :=
  ⟨claim_c10_unguarded_response_lookups.1 envNoErrArray "KEY" [] [] rfl rfl,
   claim_c10_unguarded_response_lookups.2 envEmptyObj "KEY" "example.com"
     [("ERRORARRAY", .jarr [])] rfl rfl rfl⟩

/-- Claim C9: a run whose -ip flag carries a syntactically invalid
address still terminates successfully, with no provider traffic and no
validation, when the cache already stores that exact malformed string
under the cache key; the same string is rejected fatally on the update
path. -/
theorem claim_c9_skip_path_skips_validation :
    inet_aton "not.an.ip" = false ∧
    mainRun envOffline argsMalformedIP cacheMalformedIP =
      (.exitSuccess (alreadyCurrentMsg "not.an.ip" "home" "example.com"), [],
       cacheMalformedIP) ∧
    updateDynDNS envOffline "KEY" "100" "200" "not.an.ip" =
      (.fatal (invalidIPMsg "not.an.ip"), []) :=
  ⟨by decide, by rfl, by rfl⟩

/-- Claim C2: with the desired IP determined, the run skips (successful
informational termination, no provider traffic, cache untouched) if and
only if the cache stores exactly the desired IP under the cache key;
a missing key or a differing stored IP both enter the resolve path,
whose trace begins with the domain.list call. -/
theorem claim_c2_skip_iff_cache_current (env : Env) (args : Args) (cache : Cache)
    (ip : String) (hip : desiredIP env args = .ok ip) :
    (cacheStoredIP cache (cacheKey args) = some ip →
      mainRun env args cache =
        (.exitSuccess (alreadyCurrentMsg ip args.resourceID args.domainID), [], cache)) ∧
    (cacheStoredIP cache (cacheKey args) ≠ some ip →
      ∃ tail, (mainRun env args cache).2.1 =
        Event.apiCall (domainListParams args.apiKey) :: tail) := by
  constructor
  · intro hstored
    have hc : cacheHit cache (cacheKey args) ip = true := (cacheHit_iff _ _ _).mpr hstored
    rcases mainRun_shape env args cache ip hip with ⟨_, hm⟩ | ⟨hcf, _⟩
    · exact hm
    · rw [hc] at hcf
      cases hcf
  · intro hstored
    have hc : cacheHit cache (cacheKey args) ip = false := by
      by_cases h : cacheHit cache (cacheKey args) ip = true
      · exact absurd ((cacheHit_iff _ _ _).mp h) hstored
      · simpa using h
    rcases mainRun_shape env args cache ip hip with ⟨hct, _⟩ | ⟨_, hrest⟩
    · rw [hct] at hc
      cases hc
    · rcases hrest with ⟨d, rid, _, _, _, hm⟩ | ⟨res, tail, hm, _, _⟩
      · rw [hm]
        exact ⟨_, rfl⟩
      · rw [hm]
        exact ⟨tail, rfl⟩

theorem claim_c2_witness :
    mainRun envOffline argsValid cacheValid =
      (.exitSuccess (alreadyCurrentMsg "203.0.113.5" "home" "example.com"), [], cacheValid) ∧
    ∃ tail, (mainRun envOffline argsValid []).2.1 =
      Event.apiCall (domainListParams "KEY") :: tail :=
  ⟨(claim_c2_skip_iff_cache_current envOffline argsValid cacheValid "203.0.113.5" rfl).1
     (by rfl),
   (claim_c2_skip_iff_cache_current envOffline argsValid [] "203.0.113.5" rfl).2
     (by decide)⟩

/-- Claim C3: the composite key used for the cache write is always the
unnormalized resource input, a literal dot, and the unnormalized domain
input; every other cache section is left untouched by a run; and the
skip check consults exactly that key (a stored desired IP under it
suffices to produce an event-free run), never the canonical IDs
obtained from resolution. -/
theorem claim_c3_cache_key_composition (env : Env) (args : Args) (cache : Cache) :
    (∀ k i, Event.cacheWrite k i ∈ (mainRun env args cache).2.1 →
      k = args.resourceID ++ "." ++ args.domainID) ∧
    (∀ k, k ≠ args.resourceID ++ "." ++ args.domainID →
      List.lookup k (mainRun env args cache).2.2 = List.lookup k cache) ∧
    (∀ ip, desiredIP env args = .ok ip →
      cacheStoredIP cache (args.resourceID ++ "." ++ args.domainID) = some ip →
      (mainRun env args cache).2.1 = []) := by
  cases hip : desiredIP env args with
  | error m =>
    have hm : mainRun env args cache = (.fatal m, [], cache) := by
      unfold mainRun
      rw [hip]
    refine ⟨?_, ?_, ?_⟩
    · intro k i hmem
      rw [hm] at hmem
      simp at hmem
    · intro k _
      rw [hm]
    · intro ip h
      cases h
  | ok ip =>
    rcases mainRun_shape env args cache ip hip with ⟨hct, hm⟩ | ⟨hcf, hrest⟩
    · refine ⟨?_, ?_, ?_⟩
      · intro k i hmem
        rw [hm] at hmem
        simp at hmem
      · intro k _
        rw [hm]
      · intro ip2 _ _
        rw [hm]
    · rcases hrest with ⟨d, rid, _, _, _, hm⟩ | ⟨res, tail, hm, _, hapi⟩
      · refine ⟨?_, ?_, ?_⟩
        · intro k i hmem
          rw [hm] at hmem
          simp at hmem
          exact hmem.1
        · intro k hk
          rw [hm]
          show List.lookup k (cacheSet cache (cacheKey args) ip) = _
          exact lookup_cacheSet_ne cache (cacheKey args) ip k hk
        · intro ip2 hip2 hstored
          injection hip2 with h2
          subst h2
          have hhit := (cacheHit_iff cache (cacheKey args) ip).mpr hstored
          rw [hhit] at hcf
          cases hcf
      · refine ⟨?_, ?_, ?_⟩
        · intro k i hmem
          rw [hm] at hmem
          simp at hmem
          obtain ⟨ps, hps⟩ := hapi _ hmem
          cases hps
        · intro k _
          rw [hm]
        · intro ip2 hip2 hstored
          injection hip2 with h2
          subst h2
          have hhit := (cacheHit_iff cache (cacheKey args) ip).mpr hstored
          rw [hhit] at hcf
          cases hcf

theorem claim_c3_witness :
    "home.example.com" = "home" ++ "." ++ "example.com" :=
  (claim_c3_cache_key_composition envProvider argsValid []).1
    "home.example.com" "203.0.113.5" (by decide)

/-- Claim C1: with the desired IP determined, a cache hit produces a run
with no provider calls and no cache write and an unchanged cache; a
cache miss produces a run that terminates successfully exactly when its
trace is one domain.list call, one domain.resource.list call and one
domain.resource.update call followed by one cache write; a cache write
occurs only in such a successful run, and every unsuccessful run leaves
the cache unchanged, so no partial-success state is ever recorded. -/
theorem claim_c1_run_invariant (env : Env) (args : Args) (cache : Cache)
    (ip : String) (hip : desiredIP env args = .ok ip) :
    (cacheHit cache (cacheKey args) ip = true →
      mainRun env args cache =
        (.exitSuccess (alreadyCurrentMsg ip args.resourceID args.domainID), [], cache)) ∧
    (cacheHit cache (cacheKey args) ip = false →
      (((mainRun env args cache).1.isExitSuccessB = true) ↔
        ∃ d rid, mainRun env args cache =
          (.exitSuccess (updatedMsg ip args.resourceID args.domainID),
           [Event.apiCall (domainListParams args.apiKey),
            Event.apiCall (resourceListParams args.apiKey d),
            Event.apiCall (updateParams args.apiKey d rid ip),
            Event.cacheWrite (cacheKey args) ip],
           cacheSet cache (cacheKey args) ip))) ∧
    (∀ k i, Event.cacheWrite k i ∈ (mainRun env args cache).2.1 →
      (mainRun env args cache).1.isExitSuccessB = true) ∧
    ((mainRun env args cache).1.isExitSuccessB = false →
      (mainRun env args cache).2.2 = cache) := by
  rcases mainRun_shape env args cache ip hip with ⟨hct, hm⟩ | ⟨hcf, hrest⟩
  · refine ⟨fun _ => hm, ?_, ?_, ?_⟩
    · intro hcf
      rw [hct] at hcf
      cases hcf
    · intro k i hmem
      rw [hm] at hmem
      simp at hmem
    · intro hfail
      rw [hm] at hfail
      simp [RunResult.isExitSuccessB] at hfail
  · rcases hrest with ⟨d, rid, hd, hr, hu, hm⟩ | ⟨res, tail, hm, hres, hapi⟩
    · refine ⟨?_, ?_, ?_, ?_⟩
      · intro hct
        rw [hct] at hcf
        cases hcf
      · intro _
        constructor
        · intro _
          exact ⟨d, rid, hm⟩
        · intro _
          rw [hm]
          rfl
      · intro k i _
        rw [hm]
        rfl
      · intro hfail
        rw [hm] at hfail
        simp [RunResult.isExitSuccessB] at hfail
    · refine ⟨?_, ?_, ?_, ?_⟩
      · intro hct
        rw [hct] at hcf
        cases hcf
      · intro _
        constructor
        · intro hsucc
          rw [hm] at hsucc
          simp at hsucc
          rw [hres] at hsucc
          cases hsucc
        · rintro ⟨d, rid, hm2⟩
          have hfst := congrArg (fun p => p.1) (hm.symm.trans hm2)
          simp at hfst
          rw [hfst] at hres
          simp [RunResult.isExitSuccessB] at hres
      · intro k i hmem
        rw [hm] at hmem
        simp at hmem
        obtain ⟨ps, hps⟩ := hapi _ hmem
        cases hps
      · intro _
        rw [hm]

theorem claim_c1_witness :
    ∃ d rid, mainRun envProvider argsValid [] =
      (.exitSuccess (updatedMsg "203.0.113.5" "home" "example.com"),
       [Event.apiCall (domainListParams "KEY"),
        Event.apiCall (resourceListParams "KEY" d),
        Event.apiCall (updateParams "KEY" d rid "203.0.113.5"),
        Event.cacheWrite (cacheKey argsValid) "203.0.113.5"],
       cacheSet [] (cacheKey argsValid) "203.0.113.5") :=
  ((claim_c1_run_invariant envProvider argsValid [] "203.0.113.5" rfl).2.1
    (by decide)).mp (by decide)
